import Mathlib

/-!
Verification of the WiiUDownloader title-acquisition engine (downloader.go)
against its natural-language specification.

The Go source is shallowly embedded: `downloadFile` becomes `downloadLoop` /
`downloadFileGo`, a pure function over an environment describing what the
network and filesystem do on each attempt, returning the emitted resource /
timing events together with the function's result.  `DownloadTitle` becomes
`downloadTitle`, a pure function over a `TitleEnv` describing the outcome of
each collaborator call, returning the emitted events (files created, progress
updates, fetches started) together with the returned error value.  The inline
fixed-offset TMD parsing of `DownloadTitle` is additionally packaged as the
pure function `parseTMD`.  Go runtime crashes from out-of-range slicing are
modelled by the dedicated outcome `oob` (distinct from returned errors).
-/

set_option maxRecDepth 4000

deriving instance DecidableEq for Except

/-- Mirrors the Go constant `maxRetries = 5`. -/
def maxRetries : Nat := 5

/-- Mirrors the Go constant `retryDelay = 5 * time.Second`, in seconds. -/
def retryDelaySeconds : Nat := 5

/-- Result of `resp.BodyWriteTo` in an attempt: nil error, the io.EOF
sentinel, or any other (write/body) error. -/
inductive BodyRes where
  | ok
  | eofEnd
  | errRes
deriving DecidableEq

/-- What the environment (network, filesystem, context) does on one attempt
of the `downloadFile` loop. -/
structure AttemptSpec where
  /-- `client.Do` returns a non-nil error. -/
  doErr : Bool
  /-- HTTP status code of the response. -/
  status : Nat
  /-- `os.Create(dstPath)` returns a non-nil error. -/
  createErr : Bool
  /-- `NewFileWriterWithProgress` returns a non-nil error. -/
  writerErr : Bool
  /-- the cancellation context is already done when the select runs. -/
  ctxDone : Bool
  /-- outcome of streaming the body to the destination file. -/
  body : BodyRes

/-- Resource and timing events emitted by one run of `downloadFile`. -/
inductive Ev where
  | acquireReq
  | acquireResp
  | releaseReq
  | releaseResp
  | closeBody
  | createFile
  | closeFile
  | sleep (secs : Nat)
deriving DecidableEq

/-- Error results of `downloadFile`. -/
inductive DlErr where
  | clientDo
  | statusErr (attempts status : Nat)
  | createErr
  | writerErr
  | ctxErr
  | bodyErr (attempts : Nat)
deriving DecidableEq

/-- The attempt loop of Go `downloadFile` (downloader.go:59-141), with
`attempt + fuel = maxRetries + 1` at every call; `fuel = 0` is the loop
condition `attempt <= maxRetries` failing, after which Go returns nil. -/
def downloadLoop (env : Nat → AttemptSpec) (doRetries : Bool) :
    Nat → Nat → List Ev × Except DlErr Unit
  | _, 0 => ([], .ok ())
  | attempt, fuel+1 =>
    if (env attempt).doErr = true then
      ([.acquireReq, .acquireResp, .releaseReq, .releaseResp], .error .clientDo)
    else if (env attempt).status ≠ 200 then
      if doRetries = true ∧ attempt < maxRetries then
        (.acquireReq :: .acquireResp :: .sleep retryDelaySeconds ::
            (downloadLoop env doRetries (attempt+1) fuel).1,
          (downloadLoop env doRetries (attempt+1) fuel).2)
      else
        ([.acquireReq, .acquireResp, .closeBody, .releaseReq, .releaseResp],
          .error (.statusErr attempt (env attempt).status))
    else if (env attempt).createErr = true then
      ([.acquireReq, .acquireResp, .closeBody, .releaseReq, .releaseResp],
        .error .createErr)
    else if (env attempt).writerErr = true then
      ([.acquireReq, .acquireResp, .createFile, .closeBody, .closeFile,
          .releaseReq, .releaseResp], .error .writerErr)
    else if (env attempt).ctxDone = true then
      ([.acquireReq, .acquireResp, .createFile, .closeBody, .closeFile,
          .releaseReq, .releaseResp], .error .ctxErr)
    else
      match (env attempt).body with
      | .errRes =>
        if doRetries = true ∧ attempt < maxRetries then
          (.acquireReq :: .acquireResp :: .createFile :: .closeBody :: .closeFile ::
              .releaseReq :: .releaseResp :: .sleep retryDelaySeconds ::
              (downloadLoop env doRetries (attempt+1) fuel).1,
            (downloadLoop env doRetries (attempt+1) fuel).2)
        else
          ([.acquireReq, .acquireResp, .createFile, .closeBody, .closeFile,
              .releaseReq, .releaseResp], .error (.bodyErr attempt))
      | _ =>
        ([.acquireReq, .acquireResp, .createFile, .closeBody, .closeFile,
            .releaseReq, .releaseResp], .ok ())

/-- Go `downloadFile` (downloader.go:42-144): run the attempt loop from
attempt 1. -/
def downloadFileGo (env : Nat → AttemptSpec) (doRetries : Bool) :
    List Ev × Except DlErr Unit :=
  downloadLoop env doRetries 1 maxRetries

/-- Environment in which every attempt yields HTTP status 503. -/
def envAllFail : Nat → AttemptSpec :=
  fun _ => ⟨false, 503, false, false, false, .ok⟩

example :
    (downloadFileGo envAllFail true).2 = .error (.statusErr 5 503) := by decide

example :
    (downloadFileGo envAllFail false).2 = .error (.statusErr 1 503) := by decide

example : (downloadFileGo envAllFail true).1.count .acquireReq = 5 := by decide

example : (downloadFileGo envAllFail true).1.count .releaseReq = 1 := by decide

example :
    (downloadFileGo (fun _ => ⟨false, 200, false, false, false, .eofEnd⟩) true).2
      = .ok () := by decide

/-- Environment in which the cancellation context is done when the first
attempt reaches the streaming select. -/
def envCtxCancel : Nat → AttemptSpec :=
  fun _ => ⟨false, 200, false, false, true, .ok⟩

theorem downloadLoop_statusRetry (env : Nat → AttemptSpec) (b : Bool) (a f : Nat)
    (h1 : (env a).doErr = false) (h2 : (env a).status ≠ 200)
    (h3 : b = true ∧ a < maxRetries) :
    downloadLoop env b a (f+1) =
      (.acquireReq :: .acquireResp :: .sleep retryDelaySeconds ::
          (downloadLoop env b (a+1) f).1,
        (downloadLoop env b (a+1) f).2) := by
  rw [downloadLoop]
  rw [if_neg (by simp [h1]), if_pos h2, if_pos h3]

theorem downloadLoop_statusFinal (env : Nat → AttemptSpec) (b : Bool) (a f : Nat)
    (h1 : (env a).doErr = false) (h2 : (env a).status ≠ 200)
    (h3 : ¬(b = true ∧ a < maxRetries)) :
    downloadLoop env b a (f+1) =
      ([.acquireReq, .acquireResp, .closeBody, .releaseReq, .releaseResp],
        .error (.statusErr a (env a).status)) := by
  rw [downloadLoop]
  rw [if_neg (by simp [h1]), if_pos h2, if_neg h3]

theorem downloadLoop_ctxDone (env : Nat → AttemptSpec) (b : Bool) (a f : Nat)
    (h1 : (env a).doErr = false) (h2 : (env a).status = 200)
    (h3 : (env a).createErr = false) (h4 : (env a).writerErr = false)
    (h5 : (env a).ctxDone = true) :
    downloadLoop env b a (f+1) =
      ([.acquireReq, .acquireResp, .createFile, .closeBody, .closeFile,
          .releaseReq, .releaseResp], .error .ctxErr) := by
  rw [downloadLoop]
  rw [if_neg (by simp [h1]), if_neg (by simp [h2]), if_neg (by simp [h3]),
    if_neg (by simp [h4]), if_pos h5]

theorem downloadLoop_bodyDone (env : Nat → AttemptSpec) (b : Bool) (a f : Nat)
    (h1 : (env a).doErr = false) (h2 : (env a).status = 200)
    (h3 : (env a).createErr = false) (h4 : (env a).writerErr = false)
    (h5 : (env a).ctxDone = false) (h6 : (env a).body ≠ .errRes) :
    downloadLoop env b a (f+1) =
      ([.acquireReq, .acquireResp, .createFile, .closeBody, .closeFile,
          .releaseReq, .releaseResp], .ok ()) := by
  rw [downloadLoop]
  rw [if_neg (by simp [h1]), if_neg (by simp [h2]), if_neg (by simp [h3]),
    if_neg (by simp [h4]), if_neg (by simp [h5])]
  match hb : (env a).body with
  | .errRes => exact absurd hb h6
  | .ok => rfl
  | .eofEnd => rfl

theorem downloadLoop_bodyErrRetry (env : Nat → AttemptSpec) (b : Bool) (a f : Nat)
    (h1 : (env a).doErr = false) (h2 : (env a).status = 200)
    (h3 : (env a).createErr = false) (h4 : (env a).writerErr = false)
    (h5 : (env a).ctxDone = false) (h6 : (env a).body = .errRes)
    (h7 : b = true ∧ a < maxRetries) :
    downloadLoop env b a (f+1) =
      (.acquireReq :: .acquireResp :: .createFile :: .closeBody :: .closeFile ::
          .releaseReq :: .releaseResp :: .sleep retryDelaySeconds ::
          (downloadLoop env b (a+1) f).1,
        (downloadLoop env b (a+1) f).2) := by
  rw [downloadLoop]
  rw [if_neg (by simp [h1]), if_neg (by simp [h2]), if_neg (by simp [h3]),
    if_neg (by simp [h4]), if_neg (by simp [h5]), h6]
  rw [if_pos h7]

theorem downloadLoop_bodyErrFinal (env : Nat → AttemptSpec) (b : Bool) (a f : Nat)
    (h1 : (env a).doErr = false) (h2 : (env a).status = 200)
    (h3 : (env a).createErr = false) (h4 : (env a).writerErr = false)
    (h5 : (env a).ctxDone = false) (h6 : (env a).body = .errRes)
    (h7 : ¬(b = true ∧ a < maxRetries)) :
    downloadLoop env b a (f+1) =
      ([.acquireReq, .acquireResp, .createFile, .closeBody, .closeFile,
          .releaseReq, .releaseResp], .error (.bodyErr a)) := by
  rw [downloadLoop]
  rw [if_neg (by simp [h1]), if_neg (by simp [h2]), if_neg (by simp [h3]),
    if_neg (by simp [h4]), if_neg (by simp [h5]), h6]
  rw [if_neg h7]

theorem downloadLoop_mem_acquire (env : Nat → AttemptSpec) (b : Bool) (a f : Nat) :
    Ev.acquireReq ∈ (downloadLoop env b a (f+1)).1 := by
  rw [downloadLoop]
  repeat' split
  all_goals simp

/-- C2 — against an endpoint answering a non-success status on every attempt
(and no transport error), the retryable mode performs exactly 5 GET attempts
with one 5-second sleep between consecutive attempts and ends with an error
carrying attempt count 5 and the status code, while the non-retryable mode
performs exactly 1 attempt and errors immediately with attempt count 1. -/
theorem c2_retry_budget (env : Nat → AttemptSpec)
    (h : ∀ i, (env i).doErr = false ∧ (env i).status ≠ 200) :
    downloadFileGo env true =
      ([.acquireReq, .acquireResp, .sleep retryDelaySeconds,
        .acquireReq, .acquireResp, .sleep retryDelaySeconds,
        .acquireReq, .acquireResp, .sleep retryDelaySeconds,
        .acquireReq, .acquireResp, .sleep retryDelaySeconds,
        .acquireReq, .acquireResp, .closeBody, .releaseReq, .releaseResp],
        .error (.statusErr 5 (env 5).status)) ∧
    downloadFileGo env false =
      ([.acquireReq, .acquireResp, .closeBody, .releaseReq, .releaseResp],
        .error (.statusErr 1 (env 1).status)) ∧
    (downloadFileGo env true).1.count .acquireReq = 5 ∧
    (downloadFileGo env true).1.count (.sleep retryDelaySeconds) = 4 ∧
    (downloadFileGo env false).1.count .acquireReq = 1 := by
  have e1 : downloadFileGo env true =
      ([.acquireReq, .acquireResp, .sleep retryDelaySeconds,
        .acquireReq, .acquireResp, .sleep retryDelaySeconds,
        .acquireReq, .acquireResp, .sleep retryDelaySeconds,
        .acquireReq, .acquireResp, .sleep retryDelaySeconds,
        .acquireReq, .acquireResp, .closeBody, .releaseReq, .releaseResp],
        .error (.statusErr 5 (env 5).status)) := by
    show downloadLoop env true 1 (4+1) = _
    rw [downloadLoop_statusRetry env true 1 4 (h 1).1 (h 1).2 ⟨rfl, by decide⟩,
      downloadLoop_statusRetry env true 2 3 (h 2).1 (h 2).2 ⟨rfl, by decide⟩,
      downloadLoop_statusRetry env true 3 2 (h 3).1 (h 3).2 ⟨rfl, by decide⟩,
      downloadLoop_statusRetry env true 4 1 (h 4).1 (h 4).2 ⟨rfl, by decide⟩,
      downloadLoop_statusFinal env true 5 0 (h 5).1 (h 5).2 (by decide)]
  have e2 : downloadFileGo env false =
      ([.acquireReq, .acquireResp, .closeBody, .releaseReq, .releaseResp],
        .error (.statusErr 1 (env 1).status)) := by
    show downloadLoop env false 1 (4+1) = _
    rw [downloadLoop_statusFinal env false 1 4 (h 1).1 (h 1).2 (by simp)]
  refine ⟨e1, e2, ?_, ?_, ?_⟩
  · rw [e1]; rfl
  · rw [e1]; rfl
  · rw [e2]; rfl

/-- Witness for `c2_retry_budget` at the concrete all-503 environment. -/
theorem c2_retry_budget_witness :
    downloadFileGo envAllFail true =
      ([.acquireReq, .acquireResp, .sleep retryDelaySeconds,
        .acquireReq, .acquireResp, .sleep retryDelaySeconds,
        .acquireReq, .acquireResp, .sleep retryDelaySeconds,
        .acquireReq, .acquireResp, .sleep retryDelaySeconds,
        .acquireReq, .acquireResp, .closeBody, .releaseReq, .releaseResp],
        .error (.statusErr 5 (envAllFail 5).status)) ∧
    downloadFileGo envAllFail false =
      ([.acquireReq, .acquireResp, .closeBody, .releaseReq, .releaseResp],
        .error (.statusErr 1 (envAllFail 1).status)) ∧
    (downloadFileGo envAllFail true).1.count .acquireReq = 5 ∧
    (downloadFileGo envAllFail true).1.count (.sleep retryDelaySeconds) = 4 ∧
    (downloadFileGo envAllFail false).1.count .acquireReq = 1 :=
  c2_retry_budget envAllFail (fun _ => ⟨rfl, by simp [envAllFail]⟩)

/-- C9 (counter-evidence, resource leak): in a retryable transfer whose five
attempts all get status 503, five request/response pairs are acquired but only
the final pair is released — the non-success-status retry path (sleep +
continue, downloader.go:81-84) returns nothing to the pool. -/
theorem c9_retry_path_leaks_pooled_objects :
    (downloadFileGo envAllFail true).1.count .acquireReq = 5 ∧
    (downloadFileGo envAllFail true).1.count .acquireResp = 5 ∧
    (downloadFileGo envAllFail true).1.count .releaseReq = 1 ∧
    (downloadFileGo envAllFail true).1.count .releaseResp = 1 := by
  decide

/-- C10 — when streaming ends with the io.EOF sentinel, the attempt is a
success: all of the attempt's resources are released, the loop exits after
this single attempt, and the result is non-error. -/
theorem c10_eof_is_success (env : Nat → AttemptSpec) (b : Bool)
    (h1 : (env 1).doErr = false) (h2 : (env 1).status = 200)
    (h3 : (env 1).createErr = false) (h4 : (env 1).writerErr = false)
    (h5 : (env 1).ctxDone = false) (h6 : (env 1).body = .eofEnd) :
    downloadFileGo env b =
      ([.acquireReq, .acquireResp, .createFile, .closeBody, .closeFile,
          .releaseReq, .releaseResp], .ok ()) := by
  show downloadLoop env b 1 (4+1) = _
  rw [downloadLoop_bodyDone env b 1 4 h1 h2 h3 h4 h5 (by rw [h6]; decide)]

/-- Witness for `c10_eof_is_success` at a concrete environment whose first
attempt streams and ends with io.EOF. -/
theorem c10_eof_is_success_witness :
    downloadFileGo (fun _ => ⟨false, 200, false, false, false, .eofEnd⟩) true =
      ([.acquireReq, .acquireResp, .createFile, .closeBody, .closeFile,
          .releaseReq, .releaseResp], .ok ()) :=
  c10_eof_is_success (fun _ => ⟨false, 200, false, false, false, .eofEnd⟩) true
    rfl rfl rfl rfl rfl rfl

/-- C4 — when the first attempt's streaming fails with a write/body error
(not io.EOF), `downloadFile` retries (a second request is issued) if
retryable, and otherwise returns an error carrying attempt count 1; the
error is never silently dropped by exiting the loop as a success. -/
theorem c4_stream_error_retried_or_surfaced (env : Nat → AttemptSpec) (b : Bool)
    (h1 : (env 1).doErr = false) (h2 : (env 1).status = 200)
    (h3 : (env 1).createErr = false) (h4 : (env 1).writerErr = false)
    (h5 : (env 1).ctxDone = false) (h6 : (env 1).body = .errRes) :
    (b = true → 2 ≤ (downloadFileGo env b).1.count .acquireReq) ∧
    (b = false → downloadFileGo env b =
      ([.acquireReq, .acquireResp, .createFile, .closeBody, .closeFile,
          .releaseReq, .releaseResp], .error (.bodyErr 1))) := by
  constructor
  · intro hb
    subst hb
    have e := downloadLoop_bodyErrRetry env true 1 4 h1 h2 h3 h4 h5 h6
      ⟨rfl, by decide⟩
    show 2 ≤ (downloadFileGo env true).1.count .acquireReq
    show 2 ≤ (downloadLoop env true 1 (4+1)).1.count .acquireReq
    rw [e]
    have hmem : Ev.acquireReq ∈ (downloadLoop env true (1+1) 4).1 :=
      downloadLoop_mem_acquire env true (1+1) 3
    have hsub : [Ev.acquireReq, Ev.acquireReq].Sublist
        (Ev.acquireReq :: Ev.acquireResp :: Ev.createFile :: Ev.closeBody ::
          Ev.closeFile :: Ev.releaseReq :: Ev.releaseResp ::
          Ev.sleep retryDelaySeconds :: (downloadLoop env true (1+1) 4).1) := by
      apply List.Sublist.cons₂
      exact List.Sublist.cons _ (List.Sublist.cons _ (List.Sublist.cons _
        (List.Sublist.cons _ (List.Sublist.cons _ (List.Sublist.cons _
          (List.Sublist.cons _ (List.singleton_sublist.mpr hmem)))))))
    simpa using hsub.count_le Ev.acquireReq
  · intro hb
    subst hb
    show downloadLoop env false 1 (4+1) = _
    rw [downloadLoop_bodyErrFinal env false 1 4 h1 h2 h3 h4 h5 h6 (by simp)]

/-- Witness for `c4_stream_error_retried_or_surfaced` at a concrete
environment whose every attempt fails while streaming. -/
theorem c4_stream_error_witness :
    (true = true →
      2 ≤ (downloadFileGo (fun _ => ⟨false, 200, false, false, false, .errRes⟩)
        true).1.count .acquireReq) ∧
    (true = false →
      downloadFileGo (fun _ => ⟨false, 200, false, false, false, .errRes⟩) true =
        ([.acquireReq, .acquireResp, .createFile, .closeBody, .closeFile,
            .releaseReq, .releaseResp], .error (.bodyErr 1))) :=
  c4_stream_error_retried_or_surfaced
    (fun _ => ⟨false, 200, false, false, false, .errRes⟩) true
    rfl rfl rfl rfl rfl rfl

/-- C3 (counterexample) — with the cancellation context already done when the
first attempt reaches the streaming select, `downloadFile` returns
`ctx.Err()`, a non-nil error: at the fetch level, cancellation IS reported
as an error, contrary to the claim that the operation returns a non-error
result. -/
theorem c3_fetch_level_cancellation_is_error :
    (downloadFileGo envCtxCancel true).2 = .error .ctxErr ∧
    ¬((downloadFileGo envCtxCancel true).2 = .ok ()) := by
  decide

/-! ## Fixed-offset TMD parsing (inline in DownloadTitle, downloader.go:172-249) -/

/-- A Go byte slice: a length together with its contents.  Slice and index
expressions are bounds-checked against `size` before `get` is consulted,
mirroring that a Go slice/index expression crashes first when out of
range. -/
structure Bytes where
  size : Nat
  get : Nat → Nat

/-- Byte of the metadata blob at index `i`. -/
def byteAt (d : Bytes) (i : Nat) : Nat := d.get i

/-- Big-endian integer from `n` bytes of `d` starting at `off`
(`binary.Read` with `binary.BigEndian`). -/
def readBE (d : Bytes) (off : Nat) : Nat → Nat
  | 0 => 0
  | n+1 => 256 * readBE d off n + byteAt d (off + n)

/-- Big-endian 16-bit read, as `binary.Read` of a 2-byte slice. -/
def be16 (d : Bytes) (off : Nat) : Nat := readBE d off 2

/-- Big-endian 32-bit read, as `binary.Read` of 4 bytes. -/
def be32 (d : Bytes) (off : Nat) : Nat := readBE d off 4

/-- Big-endian 64-bit read, as `binary.Read` of an 8-byte slice. -/
def be64 (d : Bytes) (off : Nat) : Nat := readBE d off 8

/-- Outcome of a parsing step: a value, a Go runtime crash from an
out-of-range slice or index expression (`oob`), or an error value returned
by `binary.Read` on a too-short reader (`err`). -/
inductive POut (α : Type) where
  | ok (a : α)
  | oob
  | err
deriving DecidableEq

/-- One parsed content record: 32-bit ID at record offset 0, type-flags byte
at record offset 7, big-endian 64-bit size at record offset 8. -/
structure CRecord where
  id : Nat
  flags : Nat
  size : Nat
deriving DecidableEq

/-- Parsed title metadata. -/
structure TMD where
  version : Nat
  count : Nat
  records : List CRecord
deriving DecidableEq

/-- The content-size loop of DownloadTitle (downloader.go:198-208): record
`i` has its size at `0xB04 + 0x30*i + 8`, read from the slice
`tmdData[loc+8 : loc+16]`, which crashes when the slice end exceeds the
buffer length. -/
def readSizesFrom (d : Bytes) (i : Nat) : Nat → POut (List Nat)
  | 0 => .ok []
  | rem+1 =>
    if d.size < 2820 + 48 * i + 16 then .oob
    else
      match readSizesFrom d (i+1) rem with
      | .ok rest => .ok (be64 d (2820 + 48 * i + 8) :: rest)
      | .oob => .oob
      | .err => .err

/-- The per-record reads of the content loop (downloader.go:234-249): the ID
is read through a seeking reader over the whole blob (a short read yields an
io error, not a crash), the flags byte `tmdData[offset+7]` is a direct index
(crash when out of range). -/
def readRecordsFrom (d : Bytes) (i : Nat) : Nat → POut (List CRecord)
  | 0 => .ok []
  | rem+1 =>
    if d.size < 2820 + 48 * i + 4 then .err
    else if d.size < 2820 + 48 * i + 8 then .oob
    else
      match readRecordsFrom d (i+1) rem with
      | .ok rest =>
        .ok ({ id := be32 d (2820 + 48 * i),
               flags := byteAt d (2820 + 48 * i + 7),
               size := be64 d (2820 + 48 * i + 8) } :: rest)
      | .oob => .oob
      | .err => .err

/-- The complete metadata-parsing stage of DownloadTitle as a pure function:
version from `tmdData[476:478]`, content count from `tmdData[478:480]`, then
the per-record size/ID/flags reads.  Both fixed-offset slices crash when the
buffer is shorter than the slice end. -/
def parseTMD (d : Bytes) : POut TMD :=
  if d.size < 478 then .oob
  else if d.size < 480 then .oob
  else
    match readSizesFrom d 0 (be16 d 478) with
    | .oob => .oob
    | .err => .err
    | .ok _ =>
      match readRecordsFrom d 0 (be16 d 478) with
      | .ok recs => .ok ⟨be16 d 476, be16 d 478, recs⟩
      | .oob => .oob
      | .err => .err

/-- The record list a correct parse extracts: for `rem` records starting at
index `i`, the 32-bit ID at `0xB04 + 0x30*i`, the flags byte at offset 7 and
the 64-bit size at offset 8 of each 0x30-stride record. -/
def recList (d : Bytes) (i : Nat) : Nat → List CRecord
  | 0 => []
  | rem+1 =>
    { id := be32 d (2820 + 48 * i),
      flags := byteAt d (2820 + 48 * i + 7),
      size := be64 d (2820 + 48 * i + 8) } :: recList d (i+1) rem

/-- The size list the size loop extracts. -/
def sizeList (d : Bytes) (i : Nat) : Nat → List Nat
  | 0 => []
  | rem+1 => be64 d (2820 + 48 * i + 8) :: sizeList d (i+1) rem

theorem readSizesFrom_ok (d : Bytes) :
    ∀ rem i, (∀ j, j < rem → 2820 + 48 * (i + j) + 16 ≤ d.size) →
      readSizesFrom d i rem = .ok (sizeList d i rem) := by
  intro rem
  induction rem with
  | zero => intro i _; rfl
  | succ r ih =>
    intro i h
    rw [readSizesFrom]
    rw [if_neg (by have := h 0 (Nat.succ_pos r); omega)]
    rw [ih (i+1) (fun j hj => by have := h (j+1) (by omega); omega)]
    rfl

theorem readRecordsFrom_ok (d : Bytes) :
    ∀ rem i, (∀ j, j < rem → 2820 + 48 * (i + j) + 16 ≤ d.size) →
      readRecordsFrom d i rem = .ok (recList d i rem) := by
  intro rem
  induction rem with
  | zero => intro i _; rfl
  | succ r ih =>
    intro i h
    rw [readRecordsFrom]
    rw [if_neg (by have := h 0 (Nat.succ_pos r); omega),
      if_neg (by have := h 0 (Nat.succ_pos r); omega)]
    rw [ih (i+1) (fun j hj => by have := h (j+1) (by omega); omega)]
    rfl

theorem recList_length (d : Bytes) :
    ∀ rem i, (recList d i rem).length = rem := by
  intro rem
  induction rem with
  | zero => intro i; rfl
  | succ r ih => intro i; rw [recList]; simp [ih (i+1)]

/-- C1 (behaviour at the failing inputs) — on every metadata buffer shorter
than the 478 bytes needed for the fixed version field, the parsing stage
crashes with a Go slice-bounds runtime error (`oob`); it does not return an
error value (`err`), so no truncation error is ever produced. -/
theorem c1_truncated_metadata_crashes (d : Bytes) (h : d.size < 478) :
    parseTMD d = .oob ∧ parseTMD d ≠ .err := by
  unfold parseTMD
  rw [if_pos h]
  exact ⟨rfl, by intro hc; cases hc⟩

/-- The empty byte buffer. -/
def emptyBytes : Bytes := ⟨0, fun _ => 0⟩

/-- Witness for `c1_truncated_metadata_crashes` at the empty buffer. -/
theorem c1_truncated_metadata_crashes_witness :
    parseTMD emptyBytes = .oob ∧ parseTMD emptyBytes ≠ .err :=
  c1_truncated_metadata_crashes emptyBytes (by decide)

/-- C5 — on every metadata buffer long enough for its declared fields
(480 bytes of fixed header and, for each of the `contentCount` records
declared at offset 478, the record fields up to `0xB04 + 0x30*i + 16`), the
parse succeeds and returns the big-endian 16-bit version at offset 476, the
big-endian 16-bit content count at offset 478, and exactly `contentCount`
records, record `i` carrying the 32-bit ID at `0xB04 + 0x30*i`, the
type-flags byte at `0xB04 + 0x30*i + 7`, and the big-endian 64-bit size at
`0xB04 + 0x30*i + 8`. -/
theorem c5_parse_well_formed (d : Bytes) (h480 : 480 ≤ d.size)
    (hrec : ∀ i, i < be16 d 478 → 2820 + 48 * i + 16 ≤ d.size) :
    parseTMD d = .ok ⟨be16 d 476, be16 d 478, recList d 0 (be16 d 478)⟩ ∧
    (recList d 0 (be16 d 478)).length = be16 d 478 := by
  constructor
  · unfold parseTMD
    rw [if_neg (by omega), if_neg (by omega)]
    rw [readSizesFrom_ok d (be16 d 478) 0 (fun j hj => hrec (0 + j) (by omega))]
    rw [readRecordsFrom_ok d (be16 d 478) 0 (fun j hj => hrec (0 + j) (by omega))]
  · exact recList_length d (be16 d 478) 0

/-- Concrete metadata fixture: version 3, two content records — record 0 with
ID 0, flags 0, size 1000; record 1 with ID 1, flags 0x2 (integrity-tree
sidecar), size 2000. -/
def fixtureTMD : Bytes :=
  ⟨2884, fun i =>
    if i = 477 then 3          -- version 3 (bytes 476-477, big-endian)
    else if i = 479 then 2     -- content count 2 (bytes 478-479)
    else if i = 2834 then 3    -- record 0 size bytes: 1000 = 3*256 + 232
    else if i = 2835 then 232
    else if i = 2871 then 1    -- record 1 (base 2868): ID 1
    else if i = 2875 then 2    -- record 1 flags byte: 0x2 set
    else if i = 2882 then 7    -- record 1 size bytes: 2000 = 7*256 + 208
    else if i = 2883 then 208
    else 0⟩

/-- Witness for `c5_parse_well_formed` at the concrete fixture. -/
theorem c5_parse_well_formed_witness :
    parseTMD fixtureTMD =
      .ok ⟨be16 fixtureTMD 476, be16 fixtureTMD 478,
        recList fixtureTMD 0 (be16 fixtureTMD 478)⟩ ∧
    (recList fixtureTMD 0 (be16 fixtureTMD 478)).length = be16 fixtureTMD 478 :=
  c5_parse_well_formed fixtureTMD (by decide) (by decide)

example :
    parseTMD fixtureTMD =
      .ok ⟨3, 2, [⟨0, 0, 1000⟩, ⟨1, 2, 2000⟩]⟩ := by decide

/-! ## The acquisition orchestrator DownloadTitle (downloader.go:146-270) -/

/-- Uppercase hexadecimal digit. -/
def hexDigit (n : Nat) : Char :=
  if n < 10 then Char.ofNat (48 + n) else Char.ofNat (55 + n)

/-- Hexadecimal digits of `n`, least significant first, with recursion fuel. -/
def hexDigitsRev (fuel n : Nat) : List Char :=
  match fuel with
  | 0 => []
  | f+1 => if n = 0 then [] else hexDigit (n % 16) :: hexDigitsRev f (n / 16)

/-- Go `fmt.Sprintf("%08X", id)`: uppercase hexadecimal, zero-padded on the
left to 8 characters. -/
def hex8 (n : Nat) : String :=
  let ds := (hexDigitsRev 16 n).reverse
  String.mk (List.replicate (8 - ds.length) (Char.ofNat 48) ++ ds)

example : hex8 0 = "00000000" := by decide

example : hex8 1 = "00000001" := by decide

example : hex8 2882400018 = "ABCDEF12" := by decide

/-- Outcome of one collaborator call that can fail, seen together with the
`progressReporter.Cancelled()` flag that DownloadTitle consults on failure:
`success` (nil error), `cancelled` (non-nil error with the cancellation flag
set), `failed` (non-nil error, flag clear). -/
inductive FOut where
  | success
  | cancelled
  | failed
deriving DecidableEq

/-- Environment of one DownloadTitle run: what every collaborator call
does.  `appFetch i`/`h3Fetch i`/`postIter i` concern iteration `i` of the
content loop; `postIter` is the `progressReporter.Cancelled()` poll at the
end of an iteration, `finalCancelled` the poll guarding decryption after a
loop that was not broken by cancellation. -/
structure TitleEnv where
  mkdirOk : Bool
  tmdFetch : FOut
  readFileOk : Bool
  tikFetch : FOut
  genKeyOk : Bool
  genTicketOk : Bool
  certOutcome : FOut
  certFileOk : Bool
  appFetch : Nat → FOut
  h3Fetch : Nat → FOut
  postIter : Nat → Bool
  finalCancelled : Bool
  decryptOk : Bool

/-- Which remote resource a `downloadFile` call inside DownloadTitle is for;
content fetches carry the loop index and the record's content ID. -/
inductive FetchKind where
  | tmd
  | cetk
  | app (i : Nat) (id : Nat)
  | h3 (i : Nat) (id : Nat)
deriving DecidableEq

/-- Observable events of a DownloadTitle run. -/
inductive TEv where
  | setTotal (n : Nat)
  | setTitle
  | mkdir
  | fetchStarted (k : FetchKind) (retryable : Bool)
  | fileCreated (name : String)
  | keyDerived
  | ticketSynthesized (version : Nat)
  | setSize (n : Nat)
  | addDownloaded (n : Nat)
  | decryptStarted
  | removedOriginals
deriving DecidableEq

/-- Error results of DownloadTitle.  `oob` is a Go runtime crash from an
out-of-range slice or index, not a returned error. -/
inductive TErr where
  | mkdirErr
  | tmdFetchErr
  | readFileErr
  | oob
  | readErr
  | tikKeyErr
  | tikGenErr
  | certErr
  | certFileErr
  | appFetchErr (i : Nat)
  | h3FetchErr (i : Nat)
  | decryptErr
deriving DecidableEq

/-- How the content loop exits: all records processed, broken by an observed
cancellation, or a returned error. -/
inductive LExit where
  | completed
  | cancelledExit
  | failedExit (e : TErr)
deriving DecidableEq

/-- The per-content loop of DownloadTitle (downloader.go:234-261), iteration
`i`, `rem` iterations left.  Per iteration: read the 32-bit content ID at
`2820 + 48*i` through the seeking reader (io error when short), download
`<ID hex8>.app` (break on cancellation, return other errors), add the
record's size to the cumulative progress counter, test flags bit 0x2 at
offset 7 (index crash when short) and download `<ID hex8>.h3` likewise when
set, then poll cancellation once more before the next iteration. -/
def contentLoop (env : TitleEnv) (d : Bytes) (sizes : List Nat) (i : Nat) :
    Nat → List TEv × LExit
  | 0 => ([], .completed)
  | rem+1 =>
    if d.size < 2820 + 48 * i + 4 then ([], .failedExit .readErr)
    else
      match env.appFetch i with
      | .cancelled =>
        ([.fetchStarted (.app i (be32 d (2820 + 48 * i))) true], .cancelledExit)
      | .failed =>
        ([.fetchStarted (.app i (be32 d (2820 + 48 * i))) true],
          .failedExit (.appFetchErr i))
      | .success =>
        let id := be32 d (2820 + 48 * i)
        let evA : List TEv :=
          [.fetchStarted (.app i id) true, .fileCreated (hex8 id ++ ".app"),
            .addDownloaded (sizes.getD i 0)]
        if d.size < 2820 + 48 * i + 8 then (evA, .failedExit .oob)
        else if byteAt d (2820 + 48 * i + 7) &&& 2 = 2 then
          match env.h3Fetch i with
          | .cancelled => (evA ++ [.fetchStarted (.h3 i id) true], .cancelledExit)
          | .failed =>
            (evA ++ [.fetchStarted (.h3 i id) true], .failedExit (.h3FetchErr i))
          | .success =>
            let evB := evA ++ [.fetchStarted (.h3 i id) true,
              .fileCreated (hex8 id ++ ".h3")]
            if env.postIter i then (evB, .cancelledExit)
            else
              (evB ++ (contentLoop env d sizes (i+1) rem).1,
                (contentLoop env d sizes (i+1) rem).2)
        else
          if env.postIter i then (evA, .cancelledExit)
          else
            (evA ++ (contentLoop env d sizes (i+1) rem).1,
              (contentLoop env d sizes (i+1) rem).2)

/-- The decryption stage (downloader.go:263-267).  `DecryptContents` is
Modelled from the spec: the content decryptor is not under src/; per the
spec it decrypts every record in order and, when `deleteEncrypted` is set,
removes the encrypted originals only after a fully successful decryption. -/
def decryptStage (cancelledNow decryptOk doDec delEnc : Bool) :
    List TEv × Except TErr Unit :=
  if doDec = true ∧ cancelledNow = false then
    if decryptOk = true then
      (.decryptStarted :: (if delEnc = true then [.removedOriginals] else []),
        .ok ())
    else ([.decryptStarted], .error .decryptErr)
  else ([], .ok ())

/-- DownloadTitle from the content-count read onward (downloader.go:191-269):
read the count at 478 (slice crash below 480 bytes), run the size loop, set
the total download size, call `GenerateCert` (Modelled from the spec: the
certificate assembler is not under src/; it returns certificate bytes, may
fetch supporting material over the network and obeys the same cancellation
convention — on a non-nil error DownloadTitle returns nil when cancelled and
the error otherwise), write `title.cert`, run the content loop, and run the
decryption stage unless cancellation was observed. -/
def tikCont (env : TitleEnv) (d : Bytes) (doDec delEnc : Bool) :
    List TEv × Except TErr Unit :=
  if d.size < 480 then ([], .error .oob)
  else
    match readSizesFrom d 0 (be16 d 478) with
    | .oob => ([], .error .oob)
    | .err => ([], .error .readErr)
    | .ok sizes =>
      match env.certOutcome with
      | .cancelled => ([TEv.setSize sizes.sum], .ok ())
      | .failed => ([TEv.setSize sizes.sum], .error .certErr)
      | .success =>
        if env.certFileOk = false then ([TEv.setSize sizes.sum], .error .certFileErr)
        else
          match (contentLoop env d sizes 0 (be16 d 478)).2 with
          | .failedExit e =>
            ([TEv.setSize sizes.sum, TEv.fileCreated "title.cert"] ++
              (contentLoop env d sizes 0 (be16 d 478)).1, .error e)
          | .cancelledExit =>
            ([TEv.setSize sizes.sum, TEv.fileCreated "title.cert"] ++
              (contentLoop env d sizes 0 (be16 d 478)).1, .ok ())
          | .completed =>
            ([TEv.setSize sizes.sum, TEv.fileCreated "title.cert"] ++
              (contentLoop env d sizes 0 (be16 d 478)).1 ++
              (decryptStage env.finalCancelled env.decryptOk doDec delEnc).1,
              (decryptStage env.finalCancelled env.decryptOk doDec delEnc).2)

/-- Go `DownloadTitle` (downloader.go:146-270) over an environment and the
bytes `d` that the downloaded `title.tmd` contains: reset the cumulative
counter, set the title, create the output directory, fetch the TMD
(retryable; on error return nil when cancelled), read it back, read the
16-bit version at 476 (slice crash below 478 bytes), fetch the ticket
non-retryable — on error return nil when cancelled, otherwise derive a key
and synthesize a ticket (`GenerateKey`/`GenerateTicket` are Modelled from
the spec: not under src/; the key is derived from the title ID and the
synthesized ticket embeds title ID, derived key and the parsed version, and
is written to the ticket path) — then continue with `tikCont`. -/
def downloadTitle (env : TitleEnv) (d : Bytes) (doDec delEnc : Bool) :
    List TEv × Except TErr Unit :=
  if env.mkdirOk = false then ([TEv.setTotal 0, TEv.setTitle], .error .mkdirErr)
  else
    match env.tmdFetch with
    | .cancelled =>
      ([TEv.setTotal 0, TEv.setTitle, TEv.mkdir, TEv.fetchStarted .tmd true],
        .ok ())
    | .failed =>
      ([TEv.setTotal 0, TEv.setTitle, TEv.mkdir, TEv.fetchStarted .tmd true],
        .error .tmdFetchErr)
    | .success =>
      let evH : List TEv := [TEv.setTotal 0, TEv.setTitle, TEv.mkdir,
        TEv.fetchStarted .tmd true, TEv.fileCreated "title.tmd"]
      if env.readFileOk = false then (evH, .error .readFileErr)
      else if d.size < 478 then (evH, .error .oob)
      else
        match env.tikFetch with
        | .cancelled => (evH ++ [TEv.fetchStarted .cetk false], .ok ())
        | .success =>
          (evH ++ [TEv.fetchStarted .cetk false, TEv.fileCreated "title.tik"] ++
            (tikCont env d doDec delEnc).1, (tikCont env d doDec delEnc).2)
        | .failed =>
          if env.genKeyOk = false then
            (evH ++ [TEv.fetchStarted .cetk false], .error .tikKeyErr)
          else if env.genTicketOk = false then
            (evH ++ [TEv.fetchStarted .cetk false, TEv.keyDerived],
              .error .tikGenErr)
          else
            (evH ++ [TEv.fetchStarted .cetk false, TEv.keyDerived,
              TEv.ticketSynthesized (be16 d 476), TEv.fileCreated "title.tik"] ++
              (tikCont env d doDec delEnc).1, (tikCont env d doDec delEnc).2)

/-- Environment in which every collaborator call succeeds and cancellation
never fires. -/
def envHappy : TitleEnv :=
  ⟨true, .success, true, .success, true, true, .success, true,
    fun _ => .success, fun _ => .success, fun _ => false, false, true⟩

example :
    (downloadTitle envHappy fixtureTMD true true).2 = .ok () := by decide

example :
    (downloadTitle envHappy fixtureTMD true false).1 =
      [TEv.setTotal 0, TEv.setTitle, TEv.mkdir, TEv.fetchStarted .tmd true,
        TEv.fileCreated "title.tmd", TEv.fetchStarted .cetk false,
        TEv.fileCreated "title.tik", TEv.setSize 3000,
        TEv.fileCreated "title.cert",
        TEv.fetchStarted (.app 0 0) true, TEv.fileCreated "00000000.app",
        TEv.addDownloaded 1000,
        TEv.fetchStarted (.app 1 1) true, TEv.fileCreated "00000001.app",
        TEv.addDownloaded 2000, TEv.fetchStarted (.h3 1 1) true,
        TEv.fileCreated "00000001.h3", TEv.decryptStarted] := by decide

/-- Names of the files a run creates, in creation order. -/
def filesOf (evs : List TEv) : List String :=
  evs.filterMap fun e =>
    match e with
    | .fileCreated n => some n
    | _ => none

/-- Total of the per-record additions to the cumulative downloaded
counter. -/
def sumAdded (evs : List TEv) : Nat :=
  (evs.filterMap fun e =>
    match e with
    | .addDownloaded n => some n
    | _ => none).sum

/-- Every event except the start of decryption. -/
def notDecryptStart : TEv → Bool
  | .decryptStarted => false
  | _ => true

/-- The events of a run that precede the start of decryption. -/
def preDecrypt (evs : List TEv) : List TEv := evs.takeWhile notDecryptStart

/-- Every event except key derivation and ticket synthesis. -/
def notTicketEv : TEv → Bool
  | .keyDerived => false
  | .ticketSynthesized _ => false
  | _ => true

/-- Every event except a file removal. -/
def notRemoval : TEv → Bool
  | .removedOriginals => false
  | _ => true

/-- Ticket-stage events under a ticket fetch that succeeds or is recovered
by synthesis (`v` the parsed metadata version). -/
def tikCaseEvs (env : TitleEnv) (v : Nat) : List TEv :=
  match env.tikFetch with
  | .success => [TEv.fileCreated "title.tik"]
  | .failed => [TEv.keyDerived, TEv.ticketSynthesized v,
      TEv.fileCreated "title.tik"]
  | .cancelled => []

/-- What follows the content loop, by loop exit: the decryption stage after
a completed loop, a nil return after a cancellation break, the error after a
failed iteration. -/
def loopTail (env : TitleEnv) (dd de : Bool) : LExit → List TEv × Except TErr Unit
  | .completed => decryptStage env.finalCancelled env.decryptOk dd de
  | .cancelledExit => ([], .ok ())
  | .failedExit e => ([], .error e)

/-- Events of `rem` fully successful content-loop iterations starting at
index `i`. -/
def loopEvs (d : Bytes) (sizes : List Nat) (i : Nat) : Nat → List TEv
  | 0 => []
  | rem+1 =>
    ([.fetchStarted (.app i (be32 d (2820 + 48 * i))) true,
      .fileCreated (hex8 (be32 d (2820 + 48 * i)) ++ ".app"),
      .addDownloaded (sizes.getD i 0)] ++
      (if byteAt d (2820 + 48 * i + 7) &&& 2 = 2 then
        [.fetchStarted (.h3 i (be32 d (2820 + 48 * i))) true,
          .fileCreated (hex8 (be32 d (2820 + 48 * i)) ++ ".h3")]
      else [])) ++
    loopEvs d sizes (i+1) rem

/-- File names created by `rem` successful content iterations from index
`i`: one `<ID hex8>.app` per record and additionally `<ID hex8>.h3` exactly
when the record's flags bit 0x2 is set. -/
def appFilesFrom (d : Bytes) (i : Nat) : Nat → List String
  | 0 => []
  | rem+1 =>
    (hex8 (be32 d (2820 + 48 * i)) ++ ".app") ::
      ((if byteAt d (2820 + 48 * i + 7) &&& 2 = 2 then
          [hex8 (be32 d (2820 + 48 * i)) ++ ".h3"]
        else []) ++ appFilesFrom d (i+1) rem)

/-- Sum of `rem` entries of `s` starting at index `i`. -/
def sumGetD (s : List Nat) (i : Nat) : Nat → Nat
  | 0 => 0
  | rem+1 => s.getD i 0 + sumGetD s (i+1) rem

/-- A concrete environment in which the TMD fetch fails with the
cancellation flag set. -/
def envCancelledAtTmd : TitleEnv :=
  ⟨true, .cancelled, true, .success, true, true, .success, true,
    fun _ => .success, fun _ => .success, fun _ => false, false, true⟩

/-- C3 (amended) — cancellation surfaces at the fetch level as the context's
error: when the context is done at the streaming select of the first
attempt, `downloadFile` returns `ctx.Err()` (a non-nil error); the caller
`DownloadTitle` is what converts cancellation into a non-error outcome,
returning nil when a fetch fails with the cancellation flag set. -/
theorem c3_cancellation_error_converted_by_caller (env : Nat → AttemptSpec)
    (tenv : TitleEnv) (d : Bytes) (b dd de : Bool)
    (h1 : (env 1).doErr = false) (h2 : (env 1).status = 200)
    (h3 : (env 1).createErr = false) (h4 : (env 1).writerErr = false)
    (h5 : (env 1).ctxDone = true)
    (h6 : tenv.mkdirOk = true) (h7 : tenv.tmdFetch = .cancelled) :
    (downloadFileGo env b).2 = .error .ctxErr ∧
    (downloadTitle tenv d dd de).2 = .ok () := by
  constructor
  · show (downloadLoop env b 1 (4+1)).2 = _
    rw [downloadLoop_ctxDone env b 1 4 h1 h2 h3 h4 h5]
  · rw [downloadTitle, if_neg (by simp [h6]), h7]

/-- Witness for `c3_cancellation_error_converted_by_caller` at concrete
environments. -/
theorem c3_cancellation_error_converted_by_caller_witness :
    (downloadFileGo envCtxCancel true).2 = .error .ctxErr ∧
    (downloadTitle envCancelledAtTmd fixtureTMD true true).2 = .ok () :=
  c3_cancellation_error_converted_by_caller envCtxCancel envCancelledAtTmd
    fixtureTMD true true true rfl rfl rfl rfl rfl rfl rfl

theorem contentLoop_notTicket (env : TitleEnv) (d : Bytes) (sizes : List Nat) :
    ∀ rem i, ((contentLoop env d sizes i rem).1.all notTicketEv) = true := by
  intro rem
  induction rem with
  | zero => intro i; rfl
  | succ r ih =>
    intro i
    rw [contentLoop]
    repeat' split
    all_goals simp_all [List.all_append, notTicketEv, ih (i+1)]

theorem decryptStage_notTicket (a b c e : Bool) :
    ((decryptStage a b c e).1.all notTicketEv) = true := by
  rw [decryptStage]
  repeat' split
  all_goals simp_all [notTicketEv]

theorem tikCont_notTicket (env : TitleEnv) (d : Bytes) (dd de : Bool) :
    ((tikCont env d dd de).1.all notTicketEv) = true := by
  rw [tikCont]
  repeat' split
  all_goals
    simp_all [List.all_append, notTicketEv, contentLoop_notTicket,
      decryptStage_notTicket]

/-- C7 — the official ticket is fetched with retrying disabled; exactly when
that fetch fails with the cancellation flag clear (and the generators
succeed), a title key is derived and a minimal ticket carrying the parsed
16-bit version at offset 476 is synthesized and written to `title.tik`;
when the fetch failure is due to cancellation, DownloadTitle returns a
non-error result with no derivation or synthesis; and when the fetch
succeeds nothing is derived or synthesized either. -/
theorem c7_ticket_fetch_and_synthesis (env : TitleEnv) (d : Bytes) (dd de : Bool)
    (h1 : env.mkdirOk = true) (h2 : env.tmdFetch = .success)
    (h3 : env.readFileOk = true) (h4 : 478 ≤ d.size) :
    TEv.fetchStarted .cetk false ∈ (downloadTitle env d dd de).1 ∧
    (env.tikFetch = .failed → env.genKeyOk = true → env.genTicketOk = true →
      TEv.keyDerived ∈ (downloadTitle env d dd de).1 ∧
      TEv.ticketSynthesized (be16 d 476) ∈ (downloadTitle env d dd de).1 ∧
      TEv.fileCreated "title.tik" ∈ (downloadTitle env d dd de).1) ∧
    (env.tikFetch = .cancelled →
      (downloadTitle env d dd de).2 = .ok () ∧
      (∀ v, TEv.ticketSynthesized v ∉ (downloadTitle env d dd de).1) ∧
      TEv.keyDerived ∉ (downloadTitle env d dd de).1) ∧
    (env.tikFetch = .success →
      (∀ v, TEv.ticketSynthesized v ∉ (downloadTitle env d dd de).1) ∧
      TEv.keyDerived ∉ (downloadTitle env d dd de).1) := by
  have hno := List.all_eq_true.mp (tikCont_notTicket env d dd de)
  rw [downloadTitle, if_neg (by simp [h1]), h2]
  simp only [h3]
  rw [if_neg (by simp), if_neg (by omega)]
  refine ⟨?_, ?_, ?_, ?_⟩
  · cases htik : env.tikFetch <;> simp only [htik] <;> repeat' split
    all_goals simp
  · intro htik hk hg
    rw [htik, hk, hg]
    rw [if_neg (by simp), if_neg (by simp)]
    simp
  · intro htik
    rw [htik]
    refine ⟨rfl, ?_, ?_⟩
    · intro v hmem
      simp at hmem
    · intro hmem
      simp at hmem
  · intro htik
    rw [htik]
    constructor
    · intro v hmem
      simp at hmem
      have := hno _ hmem
      simp [notTicketEv] at this
    · intro hmem
      simp at hmem
      have := hno _ hmem
      simp [notTicketEv] at this

/-- Environment in which the ticket fetch fails with the cancellation flag
clear, triggering synthesis. -/
def envTikSynth : TitleEnv :=
  ⟨true, .success, true, .failed, true, true, .success, true,
    fun _ => .success, fun _ => .success, fun _ => false, false, true⟩

/-- Witness for `c7_ticket_fetch_and_synthesis` at a concrete environment
whose ticket fetch fails non-cancelled. -/
theorem c7_ticket_fetch_and_synthesis_witness :
    TEv.fetchStarted .cetk false ∈ (downloadTitle envTikSynth fixtureTMD true true).1 ∧
    (envTikSynth.tikFetch = .failed → envTikSynth.genKeyOk = true →
      envTikSynth.genTicketOk = true →
      TEv.keyDerived ∈ (downloadTitle envTikSynth fixtureTMD true true).1 ∧
      TEv.ticketSynthesized (be16 fixtureTMD 476) ∈
        (downloadTitle envTikSynth fixtureTMD true true).1 ∧
      TEv.fileCreated "title.tik" ∈ (downloadTitle envTikSynth fixtureTMD true true).1) ∧
    (envTikSynth.tikFetch = .cancelled →
      (downloadTitle envTikSynth fixtureTMD true true).2 = .ok () ∧
      (∀ v, TEv.ticketSynthesized v ∉ (downloadTitle envTikSynth fixtureTMD true true).1) ∧
      TEv.keyDerived ∉ (downloadTitle envTikSynth fixtureTMD true true).1) ∧
    (envTikSynth.tikFetch = .success →
      (∀ v, TEv.ticketSynthesized v ∉ (downloadTitle envTikSynth fixtureTMD true true).1) ∧
      TEv.keyDerived ∉ (downloadTitle envTikSynth fixtureTMD true true).1) :=
  c7_ticket_fetch_and_synthesis envTikSynth fixtureTMD true true
    rfl rfl rfl (by decide)

theorem contentLoop_happy (env : TitleEnv) (d : Bytes) (sizes : List Nat) :
    ∀ rem i,
      (∀ j, j < rem → env.appFetch (i + j) = .success ∧
        env.h3Fetch (i + j) = .success ∧ env.postIter (i + j) = false) →
      (∀ j, j < rem → 2820 + 48 * (i + j) + 16 ≤ d.size) →
      contentLoop env d sizes i rem = (loopEvs d sizes i rem, .completed) := by
  intro rem
  induction rem with
  | zero => intro i _ _; rfl
  | succ r ih =>
    intro i hs hb
    have h0 := hs 0 (Nat.succ_pos r)
    have hb0 := hb 0 (Nat.succ_pos r)
    simp only [Nat.add_zero] at h0 hb0
    have ihr := ih (i+1)
      (fun j hj => by
        have := hs (j+1) (by omega)
        rwa [show i + (j + 1) = i + 1 + j from by omega] at this)
      (fun j hj => by
        have := hb (j+1) (by omega)
        omega)
    rw [contentLoop, loopEvs]
    rw [if_neg (by omega), h0.1, if_neg (by omega), h0.2.1, h0.2.2, ihr]
    by_cases hflag : byteAt d (2820 + 48 * i + 7) &&& 2 = 2
    · rw [if_pos hflag, if_pos hflag]
      simp
    · rw [if_neg hflag, if_neg hflag]
      simp

theorem downloadTitle_main (env : TitleEnv) (d : Bytes) (dd de : Bool)
    (h1 : env.mkdirOk = true) (h2 : env.tmdFetch = .success)
    (h3 : env.readFileOk = true)
    (htik : env.tikFetch = .success ∨
      (env.tikFetch = .failed ∧ env.genKeyOk = true ∧ env.genTicketOk = true))
    (h4 : 480 ≤ d.size)
    (hb : ∀ i, i < be16 d 478 → 2820 + 48 * i + 16 ≤ d.size)
    (hcert : env.certOutcome = .success) (hcf : env.certFileOk = true) :
    downloadTitle env d dd de =
      ([TEv.setTotal 0, TEv.setTitle, TEv.mkdir, TEv.fetchStarted .tmd true,
          TEv.fileCreated "title.tmd", TEv.fetchStarted .cetk false] ++
        tikCaseEvs env (be16 d 476) ++
        [TEv.setSize (sizeList d 0 (be16 d 478)).sum,
          TEv.fileCreated "title.cert"] ++
        (contentLoop env d (sizeList d 0 (be16 d 478)) 0 (be16 d 478)).1 ++
        (loopTail env dd de
          (contentLoop env d (sizeList d 0 (be16 d 478)) 0 (be16 d 478)).2).1,
        (loopTail env dd de
          (contentLoop env d (sizeList d 0 (be16 d 478)) 0 (be16 d 478)).2).2) := by
  have hcont : tikCont env d dd de =
      ([TEv.setSize (sizeList d 0 (be16 d 478)).sum,
          TEv.fileCreated "title.cert"] ++
        (contentLoop env d (sizeList d 0 (be16 d 478)) 0 (be16 d 478)).1 ++
        (loopTail env dd de
          (contentLoop env d (sizeList d 0 (be16 d 478)) 0 (be16 d 478)).2).1,
        (loopTail env dd de
          (contentLoop env d (sizeList d 0 (be16 d 478)) 0 (be16 d 478)).2).2) := by
    rw [tikCont, if_neg (by omega)]
    rw [readSizesFrom_ok d (be16 d 478) 0 (fun j hj => by
      have := hb j hj
      omega)]
    rw [hcert]
    dsimp only
    rw [if_neg (by simp [hcf])]
    rcases hL : (contentLoop env d (sizeList d 0 (be16 d 478)) 0 (be16 d 478)).2
      with _ | _ | e
    · simp [hL, loopTail]
    · simp [hL, loopTail]
    · simp [hL, loopTail]
  rw [downloadTitle, if_neg (by simp [h1]), h2]
  simp only [h3]
  rw [if_neg (by simp), if_neg (by omega)]
  rcases htik with htik | ⟨htik, hk, hg⟩
  · rw [htik, hcont]
    simp [tikCaseEvs, htik]
  · rw [htik]
    rw [if_neg (by simp [hk]), if_neg (by simp [hg]), hcont]
    simp [tikCaseEvs, htik]

theorem filesOf_append (l₁ l₂ : List TEv) :
    filesOf (l₁ ++ l₂) = filesOf l₁ ++ filesOf l₂ := by
  simp [filesOf, List.filterMap_append]

theorem sumAdded_append (l₁ l₂ : List TEv) :
    sumAdded (l₁ ++ l₂) = sumAdded l₁ + sumAdded l₂ := by
  simp [sumAdded, List.filterMap_append]

theorem filesOf_loopEvs (d : Bytes) (sizes : List Nat) :
    ∀ rem i, filesOf (loopEvs d sizes i rem) = appFilesFrom d i rem := by
  intro rem
  induction rem with
  | zero => intro i; rfl
  | succ r ih =>
    intro i
    rw [loopEvs, appFilesFrom, filesOf_append, ih (i+1)]
    by_cases hflag : byteAt d (2820 + 48 * i + 7) &&& 2 = 2
    · rw [if_pos hflag, if_pos hflag]
      rfl
    · rw [if_neg hflag, if_neg hflag]
      rfl

theorem sumAdded_loopEvs (d : Bytes) (sizes : List Nat) :
    ∀ rem i, sumAdded (loopEvs d sizes i rem) = sumGetD sizes i rem := by
  intro rem
  induction rem with
  | zero => intro i; rfl
  | succ r ih =>
    intro i
    rw [loopEvs, sumGetD, sumAdded_append, ih (i+1)]
    by_cases hflag : byteAt d (2820 + 48 * i + 7) &&& 2 = 2
    · rw [if_pos hflag]
      rfl
    · rw [if_neg hflag]
      rfl

theorem sumGetD_shift (a : Nat) (t : List Nat) :
    ∀ rem i, sumGetD (a :: t) (i+1) rem = sumGetD t i rem := by
  intro rem
  induction rem with
  | zero => intro i; rfl
  | succ r ih =>
    intro i
    rw [sumGetD, sumGetD, ih (i+1)]
    rfl

theorem sumGetD_eq_sum : ∀ s : List Nat, sumGetD s 0 s.length = s.sum := by
  intro s
  induction s with
  | nil => rfl
  | cons a t ih =>
    show sumGetD (a :: t) 0 (t.length + 1) = (a :: t).sum
    rw [sumGetD]
    rw [show (0:Nat) + 1 = 0 + 1 from rfl]
    rw [sumGetD_shift a t t.length 0, ih]
    simp

theorem sizeList_length (d : Bytes) :
    ∀ rem i, (sizeList d i rem).length = rem := by
  intro rem
  induction rem with
  | zero => intro i; rfl
  | succ r ih => intro i; rw [sizeList]; simp [ih (i+1)]

theorem sumGetD_sizeList (d : Bytes) (c : Nat) :
    sumGetD (sizeList d 0 c) 0 c = (sizeList d 0 c).sum := by
  have h := sumGetD_eq_sum (sizeList d 0 c)
  rwa [sizeList_length d c 0] at h

theorem preDecrypt_append_of_all (l₁ l₂ : List TEv)
    (h : ∀ e ∈ l₁, notDecryptStart e = true) :
    preDecrypt (l₁ ++ l₂) = l₁ ++ preDecrypt l₂ := by
  induction l₁ with
  | nil => rfl
  | cons a t ih =>
    have ha : notDecryptStart a = true := h a (by simp)
    show preDecrypt ((a :: t) ++ l₂) = (a :: t) ++ preDecrypt l₂
    unfold preDecrypt
    rw [List.cons_append, List.takeWhile_cons, ha]
    simp only [List.cons_append]
    have := ih (fun e he => h e (by simp [he]))
    unfold preDecrypt at this
    rw [this]
    simp

theorem preDecrypt_decryptStage (a b c e : Bool) :
    preDecrypt (decryptStage a b c e).1 = [] := by
  rw [decryptStage]
  repeat' split
  all_goals rfl

theorem loopEvs_notDecrypt (d : Bytes) (sizes : List Nat) :
    ∀ rem i, ((loopEvs d sizes i rem).all notDecryptStart) = true := by
  intro rem
  induction rem with
  | zero => intro i; rfl
  | succ r ih =>
    intro i
    rw [loopEvs]
    repeat' split
    all_goals simp_all [List.all_append, notDecryptStart, ih (i+1)]

/-- C6 — in a run whose download stage completes with no error and no
cancellation, the files created before decryption begins are exactly
`title.tmd`, `title.tik`, `title.cert`, one `<ID hex8>.app` per content
record and `<ID hex8>.h3` exactly for the records whose flags bit 0x2 is
set; and the cumulative downloaded counter reaches exactly the sum of all
content record sizes before decryption begins. -/
theorem c6_download_stage_files_and_progress (env : TitleEnv) (d : Bytes)
    (dd de : Bool)
    (h1 : env.mkdirOk = true) (h2 : env.tmdFetch = .success)
    (h3 : env.readFileOk = true)
    (htik : env.tikFetch = .success ∨
      (env.tikFetch = .failed ∧ env.genKeyOk = true ∧ env.genTicketOk = true))
    (h4 : 480 ≤ d.size)
    (hb : ∀ i, i < be16 d 478 → 2820 + 48 * i + 16 ≤ d.size)
    (hcert : env.certOutcome = .success) (hcf : env.certFileOk = true)
    (hloop : ∀ i, i < be16 d 478 → env.appFetch i = .success ∧
      env.h3Fetch i = .success ∧ env.postIter i = false) :
    filesOf (preDecrypt (downloadTitle env d dd de).1) =
      ["title.tmd", "title.tik", "title.cert"] ++
        appFilesFrom d 0 (be16 d 478) ∧
    sumAdded (preDecrypt (downloadTitle env d dd de).1) =
      (sizeList d 0 (be16 d 478)).sum := by
  have hL := contentLoop_happy env d (sizeList d 0 (be16 d 478)) (be16 d 478) 0
    (fun j hj => by have := hloop j (by omega); simpa using this)
    (fun j hj => by have := hb j (by omega); omega)
  have hmain := downloadTitle_main env d dd de h1 h2 h3 htik h4 hb hcert hcf
  have hL2 : (contentLoop env d (sizeList d 0 (be16 d 478)) 0 (be16 d 478)).2 =
      .completed := by rw [hL]
  rw [hL2] at hmain
  simp only [loopTail] at hmain
  have hL1 : (contentLoop env d (sizeList d 0 (be16 d 478)) 0 (be16 d 478)).1 =
      loopEvs d (sizeList d 0 (be16 d 478)) 0 (be16 d 478) := by rw [hL]
  rw [hL1] at hmain
  have hmain1 : (downloadTitle env d dd de).1 =
      [TEv.setTotal 0, TEv.setTitle, TEv.mkdir, TEv.fetchStarted .tmd true,
          TEv.fileCreated "title.tmd", TEv.fetchStarted .cetk false] ++
        tikCaseEvs env (be16 d 476) ++
        [TEv.setSize (sizeList d 0 (be16 d 478)).sum,
          TEv.fileCreated "title.cert"] ++
        loopEvs d (sizeList d 0 (be16 d 478)) 0 (be16 d 478) ++
        (decryptStage env.finalCancelled env.decryptOk dd de).1 := by
    rw [hmain]
  have htikAll : ∀ e ∈ tikCaseEvs env (be16 d 476), notDecryptStart e = true := by
    intro e he
    rcases htik with htik | ⟨htik, _, _⟩ <;> rw [tikCaseEvs, htik] at he <;>
      fin_cases he <;> rfl
  have hallpre : ∀ e ∈ ([TEv.setTotal 0, TEv.setTitle, TEv.mkdir,
      TEv.fetchStarted FetchKind.tmd true, TEv.fileCreated "title.tmd",
      TEv.fetchStarted FetchKind.cetk false] ++ tikCaseEvs env (be16 d 476) ++
      [TEv.setSize (sizeList d 0 (be16 d 478)).sum,
        TEv.fileCreated "title.cert"] ++
      loopEvs d (sizeList d 0 (be16 d 478)) 0 (be16 d 478)),
      notDecryptStart e = true := by
    intro e he
    rcases List.mem_append.mp he with he | he
    · rcases List.mem_append.mp he with he | he
      · rcases List.mem_append.mp he with he | he
        · fin_cases he <;> rfl
        · exact htikAll e he
      · fin_cases he <;> rfl
    · exact List.all_eq_true.mp
        (loopEvs_notDecrypt d (sizeList d 0 (be16 d 478)) (be16 d 478) 0) e he
  have hpre : preDecrypt (downloadTitle env d dd de).1 =
      [TEv.setTotal 0, TEv.setTitle, TEv.mkdir, TEv.fetchStarted .tmd true,
          TEv.fileCreated "title.tmd", TEv.fetchStarted .cetk false] ++
        tikCaseEvs env (be16 d 476) ++
        [TEv.setSize (sizeList d 0 (be16 d 478)).sum,
          TEv.fileCreated "title.cert"] ++
        loopEvs d (sizeList d 0 (be16 d 478)) 0 (be16 d 478) := by
    rw [hmain1]
    rw [preDecrypt_append_of_all
      ([TEv.setTotal 0, TEv.setTitle, TEv.mkdir,
        TEv.fetchStarted FetchKind.tmd true, TEv.fileCreated "title.tmd",
        TEv.fetchStarted FetchKind.cetk false] ++ tikCaseEvs env (be16 d 476) ++
        [TEv.setSize (sizeList d 0 (be16 d 478)).sum,
          TEv.fileCreated "title.cert"] ++
        loopEvs d (sizeList d 0 (be16 d 478)) 0 (be16 d 478))
      ((decryptStage env.finalCancelled env.decryptOk dd de).1) hallpre]
    rw [preDecrypt_decryptStage]
    simp
  constructor
  · rw [hpre]
    rw [filesOf_append, filesOf_append, filesOf_append,
      filesOf_loopEvs d (sizeList d 0 (be16 d 478)) (be16 d 478) 0]
    have htc : filesOf (tikCaseEvs env (be16 d 476)) = ["title.tik"] := by
      rcases htik with htik | ⟨htik, _, _⟩ <;> rw [tikCaseEvs, htik] <;> rfl
    rw [htc]
    have hf1 : filesOf [TEv.setTotal 0, TEv.setTitle, TEv.mkdir,
        TEv.fetchStarted FetchKind.tmd true, TEv.fileCreated "title.tmd",
        TEv.fetchStarted FetchKind.cetk false] = ["title.tmd"] := rfl
    have hf2 : filesOf [TEv.setSize (sizeList d 0 (be16 d 478)).sum,
        TEv.fileCreated "title.cert"] = ["title.cert"] := rfl
    rw [hf1, hf2]
    simp
  · rw [hpre]
    rw [sumAdded_append, sumAdded_append, sumAdded_append,
      sumAdded_loopEvs d (sizeList d 0 (be16 d 478)) (be16 d 478) 0,
      sumGetD_sizeList]
    have htc : sumAdded (tikCaseEvs env (be16 d 476)) = 0 := by
      rcases htik with htik | ⟨htik, _, _⟩ <;> rw [tikCaseEvs, htik] <;> rfl
    rw [htc]
    have hs1 : sumAdded [TEv.setTotal 0, TEv.setTitle, TEv.mkdir,
        TEv.fetchStarted FetchKind.tmd true, TEv.fileCreated "title.tmd",
        TEv.fetchStarted FetchKind.cetk false] = 0 := rfl
    have hs2 : sumAdded [TEv.setSize (sizeList d 0 (be16 d 478)).sum,
        TEv.fileCreated "title.cert"] = 0 := rfl
    rw [hs1, hs2]
    simp

/-- Witness for `c6_download_stage_files_and_progress` at the concrete
2-record fixture (sizes 1000 and 2000, second record flagged): files
`title.tmd`, `title.tik`, `title.cert`, `00000000.app`, `00000001.app`,
`00000001.h3`, and cumulative progress 3000. -/
theorem c6_download_stage_files_and_progress_witness :
    filesOf (preDecrypt (downloadTitle envHappy fixtureTMD true true).1) =
      ["title.tmd", "title.tik", "title.cert"] ++
        appFilesFrom fixtureTMD 0 (be16 fixtureTMD 478) ∧
    sumAdded (preDecrypt (downloadTitle envHappy fixtureTMD true true).1) =
      (sizeList fixtureTMD 0 (be16 fixtureTMD 478)).sum :=
  c6_download_stage_files_and_progress envHappy fixtureTMD true true
    rfl rfl rfl (Or.inl rfl) (by decide) (by decide) rfl rfl
    (fun i _ => ⟨rfl, rfl, rfl⟩)

example :
    filesOf (preDecrypt (downloadTitle envHappy fixtureTMD true true).1) =
      ["title.tmd", "title.tik", "title.cert", "00000000.app",
        "00000001.app", "00000001.h3"] ∧
    sumAdded (preDecrypt (downloadTitle envHappy fixtureTMD true true).1) =
      3000 := by decide

theorem loopEvs_notRemoval (d : Bytes) (sizes : List Nat) :
    ∀ rem i, ((loopEvs d sizes i rem).all notRemoval) = true := by
  intro rem
  induction rem with
  | zero => intro i; rfl
  | succ r ih =>
    intro i
    rw [loopEvs]
    repeat' split
    all_goals simp_all [List.all_append, notRemoval, ih (i+1)]

theorem mem_loopEvs_app (d : Bytes) (sizes : List Nat) :
    ∀ rem i j id b,
      TEv.fetchStarted (.app j id) b ∈ loopEvs d sizes i rem →
      i ≤ j ∧ j < i + rem := by
  intro rem
  induction rem with
  | zero =>
    intro i j id b h
    simp [loopEvs] at h
  | succ r ih =>
    intro i j id b h
    rw [loopEvs] at h
    rcases List.mem_append.mp h with h | h
    · rcases List.mem_append.mp h with h | h
      · simp at h
        omega
      · by_cases hflag : byteAt d (2820 + 48 * i + 7) &&& 2 = 2
        · rw [if_pos hflag] at h
          simp at h
        · rw [if_neg hflag] at h
          simp at h
    · have := ih (i+1) j id b h
      omega

theorem contentLoop_cancelAt (env : TitleEnv) (d : Bytes) (sizes : List Nat) :
    ∀ k i rem, k < rem →
      (∀ j, j < k → env.appFetch (i + j) = .success ∧
        env.h3Fetch (i + j) = .success ∧ env.postIter (i + j) = false) →
      (∀ j, j ≤ k → 2820 + 48 * (i + j) + 16 ≤ d.size) →
      env.appFetch (i + k) = .cancelled →
      contentLoop env d sizes i rem =
        (loopEvs d sizes i k ++
          [TEv.fetchStarted (.app (i + k) (be32 d (2820 + 48 * (i + k)))) true],
          .cancelledExit) := by
  intro k
  induction k with
  | zero =>
    intro i rem hrem _ hbnd hcancel
    obtain ⟨r, rfl⟩ : ∃ r, rem = r + 1 := ⟨rem - 1, by omega⟩
    have hb0 := hbnd 0 (Nat.le_refl 0)
    simp only [Nat.add_zero] at hb0 hcancel
    rw [contentLoop]
    rw [if_neg (by omega), hcancel]
    simp [loopEvs]
  | succ q ih =>
    intro i rem hrem hs hbnd hcancel
    obtain ⟨r, rfl⟩ : ∃ r, rem = r + 1 := ⟨rem - 1, by omega⟩
    have h0 := hs 0 (Nat.succ_pos q)
    have hb0 := hbnd 0 (by omega)
    simp only [Nat.add_zero] at h0 hb0
    have ihr := ih (i+1) r (by omega)
      (fun j hj => by
        have := hs (j+1) (by omega)
        rwa [show i + (j + 1) = i + 1 + j from by omega] at this)
      (fun j hj => by
        have := hbnd (j+1) (by omega)
        omega)
      (by
        have := hcancel
        rwa [show i + (q + 1) = i + 1 + q from by omega] at this)
    rw [contentLoop, loopEvs]
    rw [if_neg (by omega), h0.1, if_neg (by omega), h0.2.1, h0.2.2, ihr]
    have hidx : i + 1 + q = i + (q + 1) := by omega
    by_cases hflag : byteAt d (2820 + 48 * i + 7) &&& 2 = 2
    · rw [if_pos hflag, if_pos hflag]
      simp [hidx]
    · rw [if_neg hflag, if_neg hflag]
      simp [hidx]

/-- C8 — when cancellation is observed at record `k` of the content loop,
the loop stops there (every content fetch started has index at most `k`,
and record `k`'s fetch was started), decryption never starts, no file
removal happens, and DownloadTitle returns a non-error result. -/
theorem c8_loop_cancellation_is_benign (env : TitleEnv) (d : Bytes)
    (dd de : Bool) (k : Nat)
    (h1 : env.mkdirOk = true) (h2 : env.tmdFetch = .success)
    (h3 : env.readFileOk = true)
    (htik : env.tikFetch = .success ∨
      (env.tikFetch = .failed ∧ env.genKeyOk = true ∧ env.genTicketOk = true))
    (h4 : 480 ≤ d.size)
    (hb : ∀ i, i < be16 d 478 → 2820 + 48 * i + 16 ≤ d.size)
    (hcert : env.certOutcome = .success) (hcf : env.certFileOk = true)
    (hk : k < be16 d 478)
    (hpreloop : ∀ j, j < k → env.appFetch j = .success ∧
      env.h3Fetch j = .success ∧ env.postIter j = false)
    (hcancel : env.appFetch k = .cancelled) :
    (downloadTitle env d dd de).2 = .ok () ∧
    TEv.decryptStarted ∉ (downloadTitle env d dd de).1 ∧
    TEv.removedOriginals ∉ (downloadTitle env d dd de).1 ∧
    (∀ j id, TEv.fetchStarted (.app j id) true ∈ (downloadTitle env d dd de).1 →
      j ≤ k) ∧
    TEv.fetchStarted (.app k (be32 d (2820 + 48 * k))) true ∈
      (downloadTitle env d dd de).1 := by
  have hL := contentLoop_cancelAt env d (sizeList d 0 (be16 d 478)) k 0
    (be16 d 478) hk
    (fun j hj => by simpa using hpreloop j hj)
    (fun j hj => by have := hb j (by omega); omega)
    (by simpa using hcancel)
  simp only [Nat.zero_add] at hL
  have hmain := downloadTitle_main env d dd de h1 h2 h3 htik h4 hb hcert hcf
  have hL2 : (contentLoop env d (sizeList d 0 (be16 d 478)) 0 (be16 d 478)).2 =
      .cancelledExit := by rw [hL]
  rw [hL2] at hmain
  simp only [loopTail] at hmain
  have hL1 : (contentLoop env d (sizeList d 0 (be16 d 478)) 0 (be16 d 478)).1 =
      loopEvs d (sizeList d 0 (be16 d 478)) 0 k ++
        [TEv.fetchStarted (.app k (be32 d (2820 + 48 * k))) true] := by rw [hL]
  rw [hL1] at hmain
  have hmain1 : (downloadTitle env d dd de).1 =
      [TEv.setTotal 0, TEv.setTitle, TEv.mkdir, TEv.fetchStarted .tmd true,
          TEv.fileCreated "title.tmd", TEv.fetchStarted .cetk false] ++
        tikCaseEvs env (be16 d 476) ++
        [TEv.setSize (sizeList d 0 (be16 d 478)).sum,
          TEv.fileCreated "title.cert"] ++
        (loopEvs d (sizeList d 0 (be16 d 478)) 0 k ++
          [TEv.fetchStarted (.app k (be32 d (2820 + 48 * k))) true]) := by
    rw [hmain]
    simp
  have hmain2 : (downloadTitle env d dd de).2 = .ok () := by rw [hmain]
  have htikNo : ∀ e ∈ tikCaseEvs env (be16 d 476),
      e ≠ TEv.decryptStarted ∧ e ≠ TEv.removedOriginals ∧
      ∀ j id, e ≠ TEv.fetchStarted (.app j id) true := by
    intro e he
    rcases htik with htik | ⟨htik, _, _⟩ <;> rw [tikCaseEvs, htik] at he <;>
      fin_cases he <;> simp
  refine ⟨hmain2, ?_, ?_, ?_, ?_⟩
  · rw [hmain1]
    intro hmem
    rcases List.mem_append.mp hmem with h | h
    · rcases List.mem_append.mp h with h | h
      · rcases List.mem_append.mp h with h | h
        · simp at h
        · exact absurd rfl ((htikNo _ h).1)
      · simp at h
    · rcases List.mem_append.mp h with h | h
      · have := List.all_eq_true.mp
          (loopEvs_notDecrypt d (sizeList d 0 (be16 d 478)) k 0) _ h
        simp [notDecryptStart] at this
      · simp at h
  · rw [hmain1]
    intro hmem
    rcases List.mem_append.mp hmem with h | h
    · rcases List.mem_append.mp h with h | h
      · rcases List.mem_append.mp h with h | h
        · simp at h
        · exact absurd rfl ((htikNo _ h).2.1)
      · simp at h
    · rcases List.mem_append.mp h with h | h
      · have := List.all_eq_true.mp
          (loopEvs_notRemoval d (sizeList d 0 (be16 d 478)) k 0) _ h
        simp [notRemoval] at this
      · simp at h
  · rw [hmain1]
    intro j id hmem
    rcases List.mem_append.mp hmem with h | h
    · rcases List.mem_append.mp h with h | h
      · rcases List.mem_append.mp h with h | h
        · simp at h
        · exact absurd rfl ((htikNo _ h).2.2 j id)
      · simp at h
    · rcases List.mem_append.mp h with h | h
      · have := mem_loopEvs_app d (sizeList d 0 (be16 d 478)) k 0 j id true h
        omega
      · simp at h
        omega
  · rw [hmain1]
    simp

/-- Environment in which the very first content fetch observes
cancellation. -/
def envCancelAtFirst : TitleEnv :=
  ⟨true, .success, true, .success, true, true, .success, true,
    fun _ => .cancelled, fun _ => .success, fun _ => false, false, true⟩

/-- Witness for `c8_loop_cancellation_is_benign` at the concrete fixture
with cancellation observed at record 0. -/
theorem c8_loop_cancellation_is_benign_witness :
    (downloadTitle envCancelAtFirst fixtureTMD true true).2 = .ok () ∧
    TEv.decryptStarted ∉ (downloadTitle envCancelAtFirst fixtureTMD true true).1 ∧
    TEv.removedOriginals ∉ (downloadTitle envCancelAtFirst fixtureTMD true true).1 ∧
    (∀ j id, TEv.fetchStarted (.app j id) true ∈
      (downloadTitle envCancelAtFirst fixtureTMD true true).1 → j ≤ 0) ∧
    TEv.fetchStarted (.app 0 (be32 fixtureTMD (2820 + 48 * 0))) true ∈
      (downloadTitle envCancelAtFirst fixtureTMD true true).1 :=
  c8_loop_cancellation_is_benign envCancelAtFirst fixtureTMD true true 0
    rfl rfl rfl (Or.inl rfl) (by decide) (by decide) rfl rfl (by decide)
    (fun j hj => absurd hj (by omega)) rfl
